import Mathlib

set_option maxHeartbeats 1000000
set_option maxRecDepth 100000

/-!
Shallow embedding of the radiology-ai-assistant repository, covering the
modules that the verified claims are about: modules/continuous_learning.py,
modules/feedback_logger.py, modules/ontology_processor.py,
modules/explainability.py and modules/json_report_generator.py.

Modelling conventions:
- Python floats are modelled as rationals; round(x, 2) is modelled as
  round-half-to-even of x*100 divided by 100 (the documented behaviour of
  the Python built-in round on exact values).
- Python dicts that may lack keys are modelled as structures with Option
  fields; dict.get(k, d) becomes Option.getD.
- str.lower() is modelled for ASCII via Char.toLower; "a in b" on strings
  is substring containment.
- str(entry) (Python repr of a dict) is modelled by an explicit rendering
  function; the repr of the rational abstraction of a float is rendered as
  a shortest decimal when one exists. Dict key order follows the insertion
  order of the corresponding Python code; Python set iteration order is
  modelled as insertion order.
-/

namespace RadAI

/-! Utilities modelling Python string and numeric primitives. -/

/-- The single-quote character as a string (used by the repr rendering). -/
def sq : String := String.mk [Char.ofNat 39]

/-- Python str.lower, restricted to ASCII. -/
def pyLower (s : String) : String := String.mk (s.data.map Char.toLower)

/-- Substring containment on character lists. -/
def isInfixChars (needle : List Char) : List Char → Bool
  | [] => needle.isEmpty
  | c :: rest => needle.isPrefixOf (c :: rest) || isInfixChars needle rest

/-- Python "needle in hay" for strings: substring containment. -/
def pyIn (needle hay : String) : Bool := isInfixChars needle.data hay.data

/-- Round-half-to-even to an integer, the tie rule of the Python built-in
round. -/
def roundHalfEven (q : ℚ) : ℤ :=
  let f := ⌊q⌋
  let r := q - f
  if r < 1/2 then f
  else if 1/2 < r then f + 1
  else if f % 2 = 0 then f else f + 1

/-- Python round(x, 2) on the rational model of floats. -/
def round2 (q : ℚ) : ℚ := ((roundHalfEven (q * 100) : ℤ) : ℚ) / 100

/-- Left-pad a digit string with zeros to length k. -/
def padZeros (k : ℕ) (s : String) : String :=
  String.mk (List.replicate (k - s.length) '0') ++ s

/-- Decimal rendering of a nonnegative rational, used to model the Python
repr of the float it abstracts: the shortest decimal with at most 20 places
when one exists (k is minimal with den dividing 10^k, so the scaled value
q*10^k has the numerator num*(10^k/den)), else a num/den fallback. Computed
on the numerator and denominator directly so that it evaluates by kernel
reduction. -/
def ratReprPos (q : ℚ) : String :=
  match (List.range 21).find? (fun k => 10^k % q.den == 0) with
  | some k =>
    let n : ℕ := q.num.natAbs * (10^k / q.den)
    if k = 0 then toString n ++ ".0"
    else toString (n / 10^k) ++ "." ++ padZeros k (toString (n % 10^k))
  | none => toString q.num ++ "/" ++ toString q.den

/-- Decimal rendering of a rational (model of Python float repr). -/
def ratRepr (q : ℚ) : String := if q < 0 then "-" ++ ratReprPos (-q) else ratReprPos q

/-- Python repr of a string (quoting only; escaping not modelled). -/
def pyReprStr (s : String) : String := sq ++ s ++ sq

/-- One key-value item of a Python dict repr. -/
def pyKV (k v : String) : String := pyReprStr k ++ ": " ++ v

/-- Python repr of a list given the reprs of its items. -/
def pyReprList (items : List String) : String :=
  "[" ++ String.intercalate ", " items ++ "]"

/-- Python repr of a string-to-string dict. -/
def pyReprDictStr (kvs : List (String × String)) : String :=
  "\x7b" ++ String.intercalate ", " (kvs.map (fun p => pyKV p.1 (pyReprStr p.2))) ++ "\x7d"

/-- Python repr of a bool. -/
def pyReprBool (b : Bool) : String := if b then "True" else "False"

/-! A generic stable descending insertion sort, modelling Python
sorted(xs, key=key, reverse=True): stable, descending in the key. -/

/-- Insert an element in front of the first element whose key is not larger,
so that earlier elements stay in front of equal-key later elements. -/
def orderedInsertDesc {α β : Type} [LinearOrder β] (key : α → β) (a : α) :
    List α → List α
  | [] => [a]
  | b :: l => if key b ≤ key a then a :: b :: l else b :: orderedInsertDesc key a l

/-- Stable descending sort by key (model of Python sorted with reverse=True). -/
def sortDescBy {α β : Type} [LinearOrder β] (key : α → β) : List α → List α
  | [] => []
  | a :: l => orderedInsertDesc key a (sortDescBy key l)

/-! Data model shared by feedback_logger.py and continuous_learning.py.
Findings are the dicts produced by _normalize_report_structure in
json_report_generator.py, possibly enriched by apply_rules_to_report;
fields are optional to model dict keys that may be absent. -/

structure CLFinding where
  finding : Option String
  location : Option String
  evidence : Option String
  confidence : Option ℚ
  severity : Option String
  confidence_adjusted : Option Bool
  adjustment_reason : Option String
deriving DecidableEq

/-- A canonical report dict (all four keys present, per the normalizer),
plus the rules_applied key that apply_rules_to_report adds. -/
structure CLReport where
  findings : List CLFinding
  impression : String
  recommendations : List String
  metadata : List (String × String)
  rules_applied : Option ℕ
deriving DecidableEq

/-- One record of the learning_data.json log, as written by
FeedbackLogger._save_learning_data (all keys always present). -/
structure LearningRecord where
  timestamp : String
  image : String
  original_findings : List CLFinding
  edited_findings : List CLFinding
  explanations : List String
  user_feedback : List (String × String)
  ontology_mapping : List (String × String)
  has_edits : Bool
  edit_count : ℕ
deriving DecidableEq

/-- Python repr of a finding dict; keys in the insertion order of
_normalize_report_structure and apply_rules_to_report, present keys only. -/
def CLFinding.pyRepr (f : CLFinding) : String :=
  let items :=
    (match f.finding with | some s => [pyKV "finding" (pyReprStr s)] | none => []) ++
    (match f.location with | some s => [pyKV "location" (pyReprStr s)] | none => []) ++
    (match f.evidence with | some s => [pyKV "evidence" (pyReprStr s)] | none => []) ++
    (match f.confidence with | some q => [pyKV "confidence" (ratRepr q)] | none => []) ++
    (match f.severity with | some s => [pyKV "severity" (pyReprStr s)] | none => []) ++
    (match f.confidence_adjusted with
     | some b => [pyKV "confidence_adjusted" (pyReprBool b)] | none => []) ++
    (match f.adjustment_reason with
     | some s => [pyKV "adjustment_reason" (pyReprStr s)] | none => [])
  "\x7b" ++ String.intercalate ", " items ++ "\x7d"

/-- Python str(entry) for a learning record, with the key insertion order of
_save_learning_data. -/
def LearningRecord.pyRepr (e : LearningRecord) : String :=
  "\x7b" ++ String.intercalate ", "
    ([pyKV "timestamp" (pyReprStr e.timestamp),
      pyKV "image" (pyReprStr e.image),
      pyKV "original_findings" (pyReprList (e.original_findings.map CLFinding.pyRepr)),
      pyKV "edited_findings" (pyReprList (e.edited_findings.map CLFinding.pyRepr)),
      pyKV "explanations" (pyReprList e.explanations),
      pyKV "user_feedback" (pyReprDictStr e.user_feedback),
      pyKV "ontology_mapping" (pyReprDictStr e.ontology_mapping),
      pyKV "has_edits" (pyReprBool e.has_edits),
      pyKV "edit_count" (toString e.edit_count)]) ++ "\x7d"

/-! Embedding of modules/continuous_learning.py (ContinuousLearningEngine). -/

namespace ContinuousLearningEngine

/-- The three rule variants mined by mine_rules. -/
inductive RuleType where
  | edit_pattern
  | confidence_adjustment
  | finding_association
deriving DecidableEq, BEq

/-- A mined rule dict; keys that a given variant does not set are none. -/
structure Rule where
  type : RuleType
  pattern : String
  support : ℕ
  confidence : Option ℚ
  adjustment : Option ℚ
  associations : Option (List String)
deriving DecidableEq

/-- collections.Counter update: bump the count of a key, inserting it at the
end on first occurrence (Counter iterates in insertion order). -/
def counterAdd (c : List (String × ℕ)) (k : String) : List (String × ℕ) :=
  if c.any (fun p => p.1 == k) then
    c.map (fun p => if p.1 == k then (p.1, p.2 + 1) else p)
  else c ++ [(k, 1)]

/-- _extract_edit_patterns: count the pattern "orig -> edited" over the
positionally paired differing findings of every edited record. -/
def extract_edit_patterns (learning_data : List LearningRecord) : List (String × ℕ) :=
  learning_data.foldl (fun patterns entry =>
    if entry.has_edits = false then patterns
    else
      (List.zip entry.original_findings entry.edited_findings).foldl
        (fun pats p =>
          if p.1 ≠ p.2 then
            counterAdd pats (p.1.finding.getD "" ++ " -> " ++ p.2.finding.getD "")
          else pats)
        patterns) []

/-- defaultdict(list) update used by _extract_confidence_patterns. -/
def listMapAdd (m : List (String × List ℚ)) (k : String) (v : ℚ) :
    List (String × List ℚ) :=
  if m.any (fun p => p.1 == k) then
    m.map (fun p => if p.1 == k then (p.1, p.2 ++ [v]) else p)
  else m ++ [(k, [v])]

/-- _extract_confidence_patterns: per finding name, the average of the signed
confidence deltas of positionally paired findings whose confidences differ by
more than 0.1. -/
def extract_confidence_patterns (learning_data : List LearningRecord) :
    List (String × ℚ) :=
  let adjustments : List (String × List ℚ) :=
    learning_data.foldl (fun (adj : List (String × List ℚ)) entry =>
      (List.zip entry.original_findings entry.edited_findings).foldl
        (fun (adj2 : List (String × List ℚ)) p =>
          let orig_conf : ℚ := p.1.confidence.getD (1/2)
          let edit_conf : ℚ := p.2.confidence.getD (1/2)
          if (1:ℚ)/10 < |orig_conf - edit_conf| then
            listMapAdd adj2 (p.1.finding.getD "") (edit_conf - orig_conf)
          else adj2)
        adj) []
  adjustments.map (fun p => (p.1, (p.2.foldl (· + ·) 0) / (p.2.length : ℚ)))

/-- defaultdict(set) update used by _extract_finding_patterns, with set
iteration order modelled as insertion order. -/
def setMapAdd (m : List (String × List String)) (k v : String) :
    List (String × List String) :=
  if m.any (fun p => p.1 == k) then
    m.map (fun p =>
      if p.1 == k then (p.1, if p.2.contains v then p.2 else p.2 ++ [v]) else p)
  else m ++ [(k, [v])]

/-- The all-pairs co-occurrence double loop of _extract_finding_patterns. -/
def addCooccurrences (assoc : List (String × List String)) :
    List String → List (String × List String)
  | [] => assoc
  | n :: rest =>
    addCooccurrences (rest.foldl (fun a n2 => setMapAdd (setMapAdd a n n2) n2 n) assoc) rest

/-- _extract_finding_patterns: symmetric co-occurrence sets of the nonempty
finding names of the original findings of every record. -/
def extract_finding_patterns (learning_data : List LearningRecord) :
    List (String × List String) :=
  learning_data.foldl (fun assoc entry =>
    let finding_names :=
      (entry.original_findings.filter (fun f => f.finding.getD "" ≠ "")).map
        (fun f => f.finding.getD "")
    addCooccurrences assoc finding_names) []

/-- _count_pattern_occurrences: entries whose str(entry) contains the pattern. -/
def count_pattern_occurrences (pattern : String) (learning_data : List LearningRecord) : ℕ :=
  (learning_data.filter (fun entry => pyIn pattern entry.pyRepr)).length

/-- _calculate_rule_confidence: pattern occurrences over edited-record count. -/
def calculate_rule_confidence (pattern : String) (learning_data : List LearningRecord) : ℚ :=
  let pattern_count := count_pattern_occurrences pattern learning_data
  let total_entries := (learning_data.filter (fun e => e.has_edits)).length
  if total_entries = 0 then 0
  else round2 ((pattern_count : ℚ) / (total_entries : ℚ))

/-- The edit_pattern rules appended by mine_rules, in discovery order. -/
def mined_edit_rules (learning_data : List LearningRecord) (min_support : ℕ) : List Rule :=
  ((extract_edit_patterns learning_data).filter (fun p => min_support ≤ p.2)).map
    (fun p =>
      { type := RuleType.edit_pattern, pattern := p.1, support := p.2,
        confidence := some (calculate_rule_confidence p.1 learning_data),
        adjustment := none, associations := none })

/-- The confidence_adjustment rules appended by mine_rules, in discovery order. -/
def mined_confidence_rules (learning_data : List LearningRecord) : List Rule :=
  ((extract_confidence_patterns learning_data).filter (fun p => (1:ℚ)/10 < |p.2|)).map
    (fun p =>
      { type := RuleType.confidence_adjustment, pattern := p.1,
        support := count_pattern_occurrences p.1 learning_data,
        confidence := none, adjustment := some (round2 p.2), associations := none })

/-- The finding_association rules appended by mine_rules, in discovery order. -/
def mined_association_rules (learning_data : List LearningRecord) (min_support : ℕ) : List Rule :=
  ((extract_finding_patterns learning_data).filter (fun p => min_support ≤ p.2.length)).map
    (fun p =>
      { type := RuleType.finding_association, pattern := p.1, support := p.2.length,
        confidence := none, adjustment := none, associations := some p.2 })

/-- The rule list of mine_rules before sorting: edit patterns, then confidence
adjustments, then finding associations, each in discovery order. -/
def discovered_rules (learning_data : List LearningRecord) (min_support : ℕ) : List Rule :=
  mined_edit_rules learning_data min_support
    ++ mined_confidence_rules learning_data
    ++ mined_association_rules learning_data min_support

/-- mine_rules: empty on an empty log, else the discovered rules sorted by
support descending (Python sorted is stable). -/
def mine_rules (learning_data : List LearningRecord) (min_support : ℕ) : List Rule :=
  if learning_data.isEmpty then []
  else sortDescBy (fun r => r.support) (discovered_rules learning_data min_support)

/-- The per-rule confidence-adjustment step of apply_rules_to_report: note the
source tests finding_name.lower() in rule pattern.lower(), i.e. the finding
name as a substring of the pattern. -/
def applyAdjustment (finding_name : String) (improved : CLFinding) (rule : Rule) :
    CLFinding :=
  if rule.type = RuleType.confidence_adjustment ∧
      pyIn (pyLower finding_name) (pyLower rule.pattern) = true then
    { improved with
      confidence :=
        some (round2 (max 0 (min 1 (improved.confidence.getD (1/2) + rule.adjustment.getD 0)))),
      confidence_adjusted := some true,
      adjustment_reason := some ("Based on learned pattern: " ++ rule.pattern) }
  else improved

/-- The inner loop of apply_rules_to_report over one finding: finding_name is
taken from the original finding, adjustments accumulate over the rules in
order. -/
def improveFinding (rules : List Rule) (finding : CLFinding) : CLFinding :=
  rules.foldl (applyAdjustment (finding.finding.getD "")) finding

/-- _rule_applies: only confidence_adjustment rules apply, when the rule
pattern is a case-insensitive substring of some finding name of the report. -/
def rule_applies (report : CLReport) (rule : Rule) : Bool :=
  if rule.type = RuleType.confidence_adjustment then
    report.findings.any (fun f => pyIn (pyLower rule.pattern) (pyLower (f.finding.getD "")))
  else false

/-- apply_rules_to_report, as a function of the rule list held in self.rules
(the source mines lazily when that list is empty) and the input report. -/
def apply_rules_to_report (rules : List Rule) (report : CLReport) : CLReport :=
  { report with
    findings := report.findings.map (improveFinding rules),
    rules_applied := some ((rules.filter (fun r => rule_applies report r)).length) }

/-- The engine object state relevant to mining: the cached self.rules. -/
structure Engine where
  rules : List Rule
deriving DecidableEq

/-- mine_rules as a method: recomputes from the log and stores the result. -/
def engine_mine (_e : Engine) (learning_data : List LearningRecord) (min_support : ℕ) :
    Engine × List Rule :=
  let r := mine_rules learning_data min_support
  ({ rules := r }, r)

end ContinuousLearningEngine

/-! Embedding of modules/feedback_logger.py (FeedbackLogger). -/

namespace FeedbackLogger

/-- One entry of feedback_logs.json, as built by log_feedback (all keys are
always present; edited_report holds None when no edit was supplied). -/
structure FeedbackEntry where
  timestamp : String
  image : String
  original_report : CLReport
  edited_report : Option CLReport
  explanations : List String
  user_feedback : List (String × String)
  ontology_mapping : List (String × String)
  metadata : List (String × String)
  has_edits : Bool
  edit_count : ℕ
deriving DecidableEq

/-- _count_edits: finding-list length difference, plus positionally paired
findings that differ, plus one each for a changed impression and changed
recommendations. -/
def count_edits (original edited : CLReport) : ℕ :=
  (if original.findings.length = edited.findings.length then 0
   else ((original.findings.length : ℤ) - (edited.findings.length : ℤ)).natAbs)
  + ((List.zip original.findings edited.findings).filter (fun p => p.1 ≠ p.2)).length
  + (if original.impression = edited.impression then 0 else 1)
  + (if original.recommendations = edited.recommendations then 0 else 1)

/-- The argument list of log_feedback; optional arguments default to None.
The timestamp stands for datetime.now().isoformat(). -/
structure FeedbackArgs where
  timestamp : String
  image_name : String
  original_report : CLReport
  edited_report : Option CLReport
  explanations : Option (List String)
  user_feedback : Option (List (String × String))
  ontology_mapping : Option (List (String × String))
  metadata : Option (List (String × String))

/-- The entry dict built at the top of log_feedback. -/
def feedback_entry_of (a : FeedbackArgs) : FeedbackEntry :=
  { timestamp := a.timestamp,
    image := a.image_name,
    original_report := a.original_report,
    edited_report := a.edited_report,
    explanations := a.explanations.getD [],
    user_feedback := a.user_feedback.getD [],
    ontology_mapping := a.ontology_mapping.getD [],
    metadata := a.metadata.getD [],
    has_edits := a.edited_report.isSome,
    edit_count :=
      match a.edited_report with
      | some ed => count_edits a.original_report ed
      | none => 0 }

/-- The upsert of log_feedback: replace the first entry for the same image
that has has_edits false, otherwise append. -/
def upsert_entry (image_name : String) (entry : FeedbackEntry) :
    List FeedbackEntry → List FeedbackEntry
  | [] => [entry]
  | l :: ls =>
    if l.image = image_name ∧ l.has_edits = false then entry :: ls
    else l :: upsert_entry image_name entry ls

/-- The two persisted logs (feedback_logs.json and learning_data.json). -/
structure Store where
  feedback_logs : List FeedbackEntry
  learning_data : List LearningRecord
deriving DecidableEq

/-- The learning record derived from an entry whose edited_report is present
(_save_learning_data). -/
def learning_record_of (entry : FeedbackEntry) (ed : CLReport) : LearningRecord :=
  { timestamp := entry.timestamp,
    image := entry.image,
    original_findings := entry.original_report.findings,
    edited_findings := ed.findings,
    explanations := entry.explanations,
    user_feedback := entry.user_feedback,
    ontology_mapping := entry.ontology_mapping,
    has_edits := entry.has_edits,
    edit_count := entry.edit_count }

/-- log_feedback: builds the entry, upserts the feedback log, saves it, then
appends the derived learning record. When edited_report is None the source
raises AttributeError inside _save_learning_data, because
entry.get("edited_report", \x7b\x7d) returns the stored None and None has no
get method; the feedback log has already been written at that point, the
learning log is left unchanged, and the exception propagates. -/
def log_feedback (st : Store) (a : FeedbackArgs) : Store × Except String FeedbackEntry :=
  let entry := feedback_entry_of a
  let logs := upsert_entry a.image_name entry st.feedback_logs
  match a.edited_report with
  | some ed =>
    ({ feedback_logs := logs,
       learning_data := st.learning_data ++ [learning_record_of entry ed] },
     Except.ok entry)
  | none =>
    ({ st with feedback_logs := logs },
     Except.error "AttributeError: NoneType object has no attribute get")

/-- A persisted log file as the loader sees it: absent, undecodable, or a
well-formed list of records. -/
inductive LogFile (α : Type) where
  | missing : LogFile α
  | corrupt : LogFile α
  | wellFormed (entries : List α) : LogFile α

/-- _load_logs: a missing file and a json.JSONDecodeError both yield []. -/
def load_logs : LogFile FeedbackEntry → List FeedbackEntry
  | LogFile.missing => []
  | LogFile.corrupt => []
  | LogFile.wellFormed es => es

/-- _load_learning_data: same silent recovery as _load_logs. -/
def load_learning_data : LogFile LearningRecord → List LearningRecord
  | LogFile.missing => []
  | LogFile.corrupt => []
  | LogFile.wellFormed es => es

/-- The dict returned by get_feedback_statistics; the empty-log branch of the
source returns no edit_rate key, modelled as none. -/
structure FeedbackStatistics where
  total_entries : ℕ
  entries_with_edits : ℕ
  total_edits : ℕ
  average_edits_per_entry : ℚ
  edit_rate : Option ℚ
deriving DecidableEq

/-- get_feedback_statistics, reading the feedback log file. -/
def get_feedback_statistics (file : LogFile FeedbackEntry) : FeedbackStatistics :=
  let logs := load_logs file
  if logs.isEmpty then
    { total_entries := 0, entries_with_edits := 0, total_edits := 0,
      average_edits_per_entry := 0, edit_rate := none }
  else
    let entries_with_edits := (logs.filter (fun l => l.has_edits)).length
    let total_edits := (logs.map (fun l => l.edit_count)).foldl (· + ·) 0
    { total_entries := logs.length,
      entries_with_edits := entries_with_edits,
      total_edits := total_edits,
      average_edits_per_entry := round2 ((total_edits : ℚ) / (logs.length : ℚ)),
      edit_rate := some (round2 ((entries_with_edits : ℚ) / (logs.length : ℚ))) }

end FeedbackLogger

/-- ContinuousLearningEngine.load_learning_data has the same silent recovery
as the loaders of FeedbackLogger. -/
def ContinuousLearningEngine.load_learning_data :
    FeedbackLogger.LogFile LearningRecord → List LearningRecord
  | FeedbackLogger.LogFile.missing => []
  | FeedbackLogger.LogFile.corrupt => []
  | FeedbackLogger.LogFile.wellFormed es => es

/-- mine_rules as called against the learning_data.json file. -/
def ContinuousLearningEngine.mine_rules_from_file
    (file : FeedbackLogger.LogFile LearningRecord) (min_support : ℕ) :
    List ContinuousLearningEngine.Rule :=
  ContinuousLearningEngine.mine_rules (ContinuousLearningEngine.load_learning_data file)
    min_support

/-! Embedding of modules/ontology_processor.py (OntologyProcessor). -/

namespace OntologyProcessor

/-- _calculate_mapping_confidence: original confidence plus 0.2 when both the
RadLex match list and the CheXpert match list are nonempty, plus 0.1 when
exactly one is, capped at 1.0, rounded to 2 decimals. -/
def calculate_mapping_confidence (radlex_matches chexpert_matches : List String)
    (original_confidence : ℚ) : ℚ :=
  let base_confidence :=
    if radlex_matches ≠ [] ∧ chexpert_matches ≠ [] then
      min 1 (original_confidence + 2/10)
    else if radlex_matches ≠ [] ∨ chexpert_matches ≠ [] then
      min 1 (original_confidence + 1/10)
    else original_confidence
  round2 base_confidence

/-- The number of vocabularies (RadLex, CheXpert) that produced a match. -/
def vocabHits (radlex_matches chexpert_matches : List String) : ℕ :=
  (if radlex_matches = [] then 0 else 1) + (if chexpert_matches = [] then 0 else 1)

end OntologyProcessor

/-! Embedding of modules/explainability.py (ExplainabilityEngine). -/

namespace ExplainabilityEngine

/-- The fixed template bound to high confidence. -/
def template_high : String :=
  "Strong visual evidence supports this finding with clear radiographic features."

/-- The fixed template bound to medium confidence. -/
def template_medium : String :=
  "Moderate visual evidence present, but some features may be subtle or partially obscured."

/-- The fixed template bound to low confidence. -/
def template_low : String :=
  "Limited visual evidence; findings may be subtle or require additional views for confirmation."

/-- One item of the evidence chain. -/
structure EvidenceItem where
  type : String
  description : String
  relevance : String
deriving DecidableEq

/-- Python percent formatting with one decimal place, format spec .1%
(round-half-to-even, as the Python format machinery rounds ties). -/
def fmtPercent1 (q : ℚ) : String :=
  let t := roundHalfEven (q * 1000)
  let sign := if t < 0 then "-" else ""
  let n := t.natAbs
  sign ++ toString (n / 10) ++ "." ++ toString (n % 10) ++ "%"

/-- _build_evidence_chain: location entry, then visual entry, then a
confidence entry only when confidence is at least 0.7. -/
def build_evidence_chain (finding : CLFinding) : List EvidenceItem :=
  let evidence := finding.evidence.getD ""
  let location := finding.location.getD ""
  (if location ≠ "" then
     [{ type := "location", description := "Finding located in: " ++ location,
        relevance := "high" }]
   else [])
  ++ (if evidence ≠ "" then
        [{ type := "visual", description := evidence, relevance := "high" }]
      else [])
  ++ (if (7:ℚ)/10 ≤ finding.confidence.getD (1/2) then
        [{ type := "confidence",
           description := "High confidence based on clear radiographic features",
           relevance := "high" }]
      else [])

/-- _generate_reasoning: fixed slots joined by spaces, slots omitted when the
source field is empty; the evidence excerpt is truncated to 100 characters. -/
def generate_reasoning (finding : CLFinding) (confidence_level : String)
    (evidence : String) : String :=
  let finding_name := finding.finding.getD ""
  let location := finding.location.getD ""
  let severity := finding.severity.getD ""
  String.intercalate " "
    (["The AI identified " ++ sq ++ finding_name ++ sq]
     ++ (if location ≠ "" then ["in the " ++ location] else [])
     ++ (if severity ≠ "" then ["with " ++ severity ++ " severity"] else [])
     ++ ["based on " ++ confidence_level ++ " confidence ("
          ++ fmtPercent1 (finding.confidence.getD 0) ++ ")"]
     ++ (if evidence ≠ "" then ["supported by: " ++ evidence.take 100 ++ "..."] else []))

/-- The fixed list of radiological key phrases of _extract_key_evidence. -/
def key_phrases : List String :=
  ["increased", "decreased", "enlarged", "opacity", "effusion",
   "consolidation", "atelectasis", "pneumothorax", "edema",
   "cardiomegaly", "blunting", "collapse", "device"]

/-- _extract_key_evidence: up to five phrases of the fixed list contained in
the lowercased evidence text, in the order of the fixed list. -/
def extract_key_evidence (evidence : String) : List String :=
  if evidence = "" then []
  else (key_phrases.filter (fun phrase => pyIn phrase (pyLower evidence))).take 5

/-- The explanation dict of _explain_finding. -/
structure Explanation where
  confidence_level : String
  confidence_score : ℚ
  evidence_chain : List EvidenceItem
  reasoning : String
  template : String
  key_evidence : List String
deriving DecidableEq

/-- _explain_finding: buckets confidence into high (at least 0.7), medium (at
least 0.4), low (else), and assembles the explanation dict. -/
def explain_finding (finding : CLFinding) : Explanation :=
  let confidence : ℚ := finding.confidence.getD (1/2)
  let evidence := finding.evidence.getD ""
  let level_template :=
    if (7:ℚ)/10 ≤ confidence then ("high", template_high)
    else if (2:ℚ)/5 ≤ confidence then ("medium", template_medium)
    else ("low", template_low)
  { confidence_level := level_template.1,
    confidence_score := confidence,
    evidence_chain := build_evidence_chain finding,
    reasoning := generate_reasoning finding level_template.1 evidence,
    template := level_template.2,
    key_evidence := extract_key_evidence evidence }

/-- One of the top-3 key findings of the summary. -/
structure KeyFinding where
  finding : String
  confidence : ℚ
  location : String
deriving DecidableEq

/-- The summary dict of generate_summary_explanation. -/
structure SummaryExplanation where
  total_findings : ℕ
  high_confidence_findings : ℕ
  average_confidence : ℚ
  overall_reliability : String
  key_findings : List KeyFinding
deriving DecidableEq

/-- The mean confidence used by generate_summary_explanation (confidence
defaulting to 0 here, and 0 for an empty finding list). -/
def summary_avg (findings : List CLFinding) : ℚ :=
  if 0 < findings.length then
    ((findings.map (fun f => f.confidence.getD 0)).foldl (· + ·) 0) / (findings.length : ℚ)
  else 0

/-- generate_summary_explanation: counts, mean confidence, the overall
reliability label from the unrounded mean, and the top three findings by
confidence descending (stable sort). -/
def generate_summary_explanation (findings : List CLFinding) : SummaryExplanation :=
  let avg_confidence := summary_avg findings
  { total_findings := findings.length,
    high_confidence_findings :=
      (findings.filter (fun f => (7:ℚ)/10 ≤ f.confidence.getD 0)).length,
    average_confidence := round2 avg_confidence,
    overall_reliability :=
      if (7:ℚ)/10 ≤ avg_confidence then "high"
      else if (2:ℚ)/5 ≤ avg_confidence then "medium"
      else "low",
    key_findings :=
      ((sortDescBy (fun f => f.confidence.getD 0) findings).take 3).map
        (fun f => { finding := f.finding.getD "", confidence := f.confidence.getD 0,
                    location := f.location.getD "" }) }

end ExplainabilityEngine

/-! Embedding of _normalize_report_structure from
modules/json_report_generator.py, over a small model of decoded JSON-like
Python values. -/

namespace JsonReportGenerator

/-- A decoded Python value as the normalizer may receive it. -/
inductive PyVal where
  | pstr (s : String)
  | pnum (q : ℚ)
  | pbool (b : Bool)
  | plist (xs : List PyVal)
  | pdict (kvs : List (String × PyVal))
  | pnone

/-- dict lookup (dicts modelled as association lists without duplicate keys). -/
def lookupPy (kvs : List (String × PyVal)) (k : String) : Option PyVal :=
  (kvs.find? (fun p => p.1 == k)).map (fun p => p.2)

/-- Parse an unsigned decimal digit string. -/
def digitsVal : List Char → Option ℕ
  | [] => none
  | cs => cs.foldl (fun acc c =>
      match acc with
      | none => none
      | some n => if c.isDigit then some (n * 10 + (c.toNat - 48)) else none)
      (some 0)

/-- Python float() on a string, for plain decimal forms such as "0.5" and
"-3" (exotic float syntax like exponents, inf and nan is out of model and
treated as failing). -/
def parseFloat? (s : String) : Option ℚ :=
  let core (t : List Char) : Option ℚ :=
    match t.splitOn '.' with
    | [ip] => (digitsVal ip).map (fun n => (n : ℚ))
    | [ip, fp] =>
      match digitsVal ip, digitsVal fp with
      | some n, some m => some ((n : ℚ) + (m : ℚ) / ((10:ℚ) ^ fp.length))
      | _, _ => none
    | _ => none
  match s.data with
  | '-' :: rest => (core rest).map (fun q => -q)
  | '+' :: rest => core rest
  | cs => core cs

/-- Python float() applied to a decoded value: numbers and bools coerce,
plain decimal strings parse, anything else raises (returns none). -/
def pyFloat : PyVal → Option ℚ
  | PyVal.pnum q => some q
  | PyVal.pbool b => some (if b then 1 else 0)
  | PyVal.pstr s => parseFloat? s
  | _ => none

/-- One normalized finding: string-keyed fields keep whatever value the raw
dict held (or the default), confidence is coerced to a number. -/
structure NormFinding where
  finding : PyVal
  location : PyVal
  evidence : PyVal
  confidence : ℚ
  severity : PyVal

/-- The canonical report structure: all four keys always present. -/
structure NormReport where
  findings : List NormFinding
  impression : PyVal
  recommendations : List PyVal
  metadata : List (String × PyVal)

/-- The confidence value float() is applied to for one raw finding dict. -/
def rawConfidence (kvs : List (String × PyVal)) : PyVal :=
  (lookupPy kvs "confidence").getD (PyVal.pnum (1/2))

/-- The findings loop of _normalize_report_structure: non-dict items are
skipped, a non-coercible confidence raises (error). -/
def normFindings : List PyVal → Except String (List NormFinding)
  | [] => Except.ok []
  | PyVal.pdict kvs :: rest =>
    match pyFloat (rawConfidence kvs) with
    | none => Except.error "ValueError: could not convert value to float"
    | some c =>
      match normFindings rest with
      | Except.error e => Except.error e
      | Except.ok tail =>
        Except.ok
          ({ finding := (lookupPy kvs "finding").getD (PyVal.pstr ""),
             location := (lookupPy kvs "location").getD (PyVal.pstr ""),
             evidence := (lookupPy kvs "evidence").getD (PyVal.pstr ""),
             confidence := c,
             severity := (lookupPy kvs "severity").getD (PyVal.pstr "unknown") } :: tail)
  | _ :: rest => normFindings rest

/-- _normalize_report_structure on a raw report dict. -/
def normalize_report_structure (report : List (String × PyVal)) :
    Except String NormReport :=
  let fs :=
    match lookupPy report "findings" with
    | some (PyVal.plist xs) => normFindings xs
    | _ => Except.ok []
  match fs with
  | Except.error e => Except.error e
  | Except.ok findings =>
    Except.ok
      { findings := findings,
        impression := (lookupPy report "impression").getD (PyVal.pstr ""),
        recommendations :=
          match lookupPy report "recommendations" with
          | some (PyVal.plist xs) => xs
          | some (PyVal.pstr s) => [PyVal.pstr s]
          | _ => [],
        metadata :=
          match lookupPy report "metadata" with
          | some (PyVal.pdict kvs) => kvs
          | _ => [] }

/-- Whether every finding-shaped item of the findings list has a coercible
confidence, so that the normalizer cannot raise. -/
def findingsCoercible (report : List (String × PyVal)) : Bool :=
  match lookupPy report "findings" with
  | some (PyVal.plist xs) =>
    xs.all (fun x =>
      match x with
      | PyVal.pdict kvs => (pyFloat (rawConfidence kvs)).isSome
      | _ => true)
  | _ => true

/-- The coerced confidences of the retained (dict-shaped) findings. -/
def coercedConfidences (xs : List PyVal) : List (Option ℚ) :=
  (xs.filter (fun x => match x with | PyVal.pdict _ => true | _ => false)).map
    (fun x => match x with | PyVal.pdict kvs => pyFloat (rawConfidence kvs) | _ => none)

end JsonReportGenerator

/-! Specification-support definitions and concrete instances used by the
claims. -/

/-- A finding dict with no keys at all. -/
def emptyFinding : CLFinding :=
  { finding := none, location := none, evidence := none, confidence := none,
    severity := none, confidence_adjusted := none, adjustment_reason := none }

/-- The pre-rounding value of the mapping confidence as a function of the
number of matching vocabularies. -/
def mappingPre (h : ℕ) (c : ℚ) : ℚ :=
  if 2 ≤ h then min 1 (c + 2/10) else if h = 1 then min 1 (c + 1/10) else c

/-- The number of entries of the feedback log for a given image that carry no
edits (the upsert invariant counts these). -/
def FeedbackLogger.countUnedited (img : String) (logs : List FeedbackLogger.FeedbackEntry) : ℕ :=
  (logs.filter (fun e => decide (e.image = img ∧ e.has_edits = false))).length

/-- A canonical report used by the feedback-store scenario. -/
def c1Report : CLReport :=
  { findings := [], impression := "original impression", recommendations := [],
    metadata := [], rules_applied := none }

/-- The edited version of the scenario report (impression changed). -/
def c1Edited : CLReport :=
  { findings := [], impression := "edited impression", recommendations := [],
    metadata := [], rules_applied := none }

/-- The log_feedback argument lists of the three-call scenario on "x.jpg". -/
def c1Args (ts : String) (er : Option CLReport) : FeedbackLogger.FeedbackArgs :=
  { timestamp := ts, image_name := "x.jpg", original_report := c1Report,
    edited_report := er, explanations := none, user_feedback := none,
    ontology_mapping := none, metadata := none }

/-- The store after two no-edit calls and one edited call for "x.jpg". -/
def c1FinalStore : FeedbackLogger.Store :=
  (FeedbackLogger.log_feedback
    ((FeedbackLogger.log_feedback
      ((FeedbackLogger.log_feedback ⟨[], []⟩ (c1Args "t1" none)).1)
      (c1Args "t2" none)).1)
    (c1Args "t3" (some c1Edited))).1

/-- A mined confidence_adjustment rule whose pattern strictly extends a
finding name. -/
def c2Rule : ContinuousLearningEngine.Rule :=
  { type := ContinuousLearningEngine.RuleType.confidence_adjustment,
    pattern := "Cardiomegaly", support := 1,
    confidence := none, adjustment := some (mkRat 1 5), associations := none }

/-- A finding whose name is a strict substring of the rule pattern above. -/
def c2Finding : CLFinding :=
  { emptyFinding with finding := some "Cardio", confidence := some (mkRat 1 2) }

/-- The original finding of the end-to-end learning scenario. -/
def c3orig : CLFinding :=
  { emptyFinding with finding := some "Cardiomegaly", confidence := some (mkRat 1 2) }

/-- The edited finding of the end-to-end learning scenario. -/
def c3edit : CLFinding :=
  { emptyFinding with finding := some "Cardiomegaly", confidence := some (mkRat 9 10) }

/-- The single learning record of the end-to-end scenario. -/
def c3record : LearningRecord :=
  { timestamp := "2025-01-01T00:00:00", image := "img1.jpg",
    original_findings := [c3orig], edited_findings := [c3edit],
    explanations := [], user_feedback := [], ontology_mapping := [],
    has_edits := true, edit_count := 1 }

/-- The fresh report of the end-to-end scenario. -/
def c3fresh : CLReport :=
  { findings := [c3orig], impression := "", recommendations := [], metadata := [],
    rules_applied := none }

/-- A finding dict holding only a name. -/
def c8f (n : String) : CLFinding := { emptyFinding with finding := some n }

/-- A one-record log whose three co-occurring findings mine three
finding_association rules at min_support 2. -/
def c8data : List LearningRecord :=
  [{ timestamp := "t", image := "i.jpg",
     original_findings := [c8f "A", c8f "B", c8f "C"], edited_findings := [],
     explanations := [], user_feedback := [], ontology_mapping := [],
     has_edits := false, edit_count := 0 }]

/-- A report with a single finding named "A". -/
def c8report : CLReport :=
  { findings := [c8f "A"], impression := "", recommendations := [], metadata := [],
    rules_applied := none }

/-! General lemmas about the stable descending sort. -/

section SortLemmas

variable {α β : Type} [LinearOrder β] (key : α → β)

lemma mem_orderedInsertDesc (a x : α) (l : List α) :
    x ∈ orderedInsertDesc key a l ↔ x = a ∨ x ∈ l := by
  induction l with
  | nil => simp [orderedInsertDesc]
  | cons b t ih =>
    rw [orderedInsertDesc]
    split
    · simp [List.mem_cons]
    · simp only [List.mem_cons, ih]
      tauto

lemma sorted_orderedInsertDesc (a : α) (l : List α)
    (h : l.Pairwise (fun x y => key y ≤ key x)) :
    (orderedInsertDesc key a l).Pairwise (fun x y => key y ≤ key x) := by
  induction l with
  | nil => simp [orderedInsertDesc]
  | cons b t ih =>
    rw [List.pairwise_cons] at h
    obtain ⟨hb, ht⟩ := h
    rw [orderedInsertDesc]
    split
    · rename_i hba
      refine List.Pairwise.cons ?_ (List.Pairwise.cons hb ht)
      intro x hx
      rcases List.mem_cons.mp hx with rfl | hxt
      · exact hba
      · exact le_trans (hb x hxt) hba
    · rename_i hba
      push_neg at hba
      refine List.Pairwise.cons ?_ (ih ht)
      intro x hx
      rcases (mem_orderedInsertDesc key a x t).mp hx with rfl | hxt
      · exact le_of_lt hba
      · exact hb x hxt

lemma filter_orderedInsertDesc (a : α) (l : List α) (s : β) :
    (orderedInsertDesc key a l).filter (fun x => decide (key x = s)) =
      (a :: l).filter (fun x => decide (key x = s)) := by
  induction l with
  | nil => rfl
  | cons b t ih =>
    rw [orderedInsertDesc]
    split
    · rfl
    · rename_i hba
      push_neg at hba
      by_cases has : key a = s
      · by_cases hbs : key b = s
        · exact absurd (hbs.trans has.symm) (ne_of_gt hba)
        · simp only [List.filter_cons, decide_eq_true_eq, ih]
          simp [has, hbs]
      · simp only [List.filter_cons, has, decide_eq_true_eq, ih]
        simp [has]

lemma sorted_sortDescBy (l : List α) :
    (sortDescBy key l).Pairwise (fun x y => key y ≤ key x) := by
  induction l with
  | nil => simp [sortDescBy]
  | cons a t ih => exact sorted_orderedInsertDesc key a _ ih

lemma filter_sortDescBy (l : List α) (s : β) :
    (sortDescBy key l).filter (fun x => decide (key x = s)) =
      l.filter (fun x => decide (key x = s)) := by
  induction l with
  | nil => rfl
  | cons a t ih =>
    rw [sortDescBy, filter_orderedInsertDesc]
    simp only [List.filter_cons, ih]

lemma mem_sortDescBy (x : α) (l : List α) : x ∈ sortDescBy key l ↔ x ∈ l := by
  induction l with
  | nil => simp [sortDescBy]
  | cons a t ih =>
    rw [sortDescBy, mem_orderedInsertDesc]
    simp [ih]

end SortLemmas

/-! General lemmas about the round-half-to-even model of the Python round. -/

lemma roundHalfEven_bounds (q : ℚ) : ⌊q⌋ ≤ roundHalfEven q ∧ roundHalfEven q ≤ ⌊q⌋ + 1 := by
  rw [roundHalfEven]
  split_ifs <;> omega

lemma roundHalfEven_mono {x y : ℚ} (h : x ≤ y) : roundHalfEven x ≤ roundHalfEven y := by
  have hf : ⌊x⌋ ≤ ⌊y⌋ := Int.floor_le_floor h
  rcases lt_or_eq_of_le hf with hlt | heq
  · have hx := roundHalfEven_bounds x
    have hy := roundHalfEven_bounds y
    omega
  · have hsub : x - ⌊x⌋ ≤ y - ⌊y⌋ := by
      rw [← heq]
      exact sub_le_sub_right h _
    rw [roundHalfEven, roundHalfEven, ← heq]
    split_ifs <;> first | omega | linarith

lemma round2_mono {x y : ℚ} (h : x ≤ y) : round2 x ≤ round2 y := by
  rw [round2, round2]
  have hm : roundHalfEven (x * 100) ≤ roundHalfEven (y * 100) :=
    roundHalfEven_mono (by linarith)
  have hcast : ((roundHalfEven (x * 100) : ℤ) : ℚ) ≤ ((roundHalfEven (y * 100) : ℤ) : ℚ) := by
    exact_mod_cast hm
  linarith

lemma roundHalfEven_intCast (n : ℤ) : roundHalfEven ((n:ℚ)) = n := by
  rw [roundHalfEven]
  norm_num [Int.floor_intCast]

lemma round2_of_mul_eq (q : ℚ) (n : ℤ) (h : q * 100 = (n:ℚ)) : round2 q = (n:ℚ)/100 := by
  rw [round2, h, roundHalfEven_intCast]

lemma round2_int_div_100 (k : ℤ) : round2 ((k:ℚ)/100) = (k:ℚ)/100 := by
  have h : ((k:ℚ)/100) * 100 = (k:ℚ) := by
    field_simp
  rw [round2, h, roundHalfEven_intCast]

lemma qdiv100_le_qdiv100 {a b : ℤ} (h : a ≤ b) : (a:ℚ)/100 ≤ (b:ℚ)/100 := by
  have hq : (a:ℚ) ≤ (b:ℚ) := by exact_mod_cast h
  linarith

lemma min_div100 (a b : ℤ) : min ((a:ℚ)/100) ((b:ℚ)/100) = ((min a b : ℤ) : ℚ)/100 := by
  rcases le_total a b with hab | hab
  · rw [min_eq_left (qdiv100_le_qdiv100 hab), min_eq_left hab]
  · rw [min_eq_right (qdiv100_le_qdiv100 hab), min_eq_right hab]

lemma mkRat_as_div (a : ℤ) (b : ℕ) : (mkRat a b : ℚ) = (a : ℚ) / (b : ℚ) := by
  rw [Rat.mkRat_eq_divInt, Rat.divInt_eq_div]
  norm_num

lemma bonus_as_div (k b : ℤ) : (k:ℚ)/100 + (b:ℚ)/100 = ((k + b : ℤ):ℚ)/100 := by
  push_cast
  ring

lemma one_as_div : (1:ℚ) = ((100:ℤ):ℚ)/100 := by norm_num

lemma min_one_div100 (m : ℤ) : min 1 ((m:ℚ)/100) = ((min 100 m : ℤ):ℚ)/100 := by
  rw [one_as_div, min_div100]

/-! Lemmas about the ontology mapping confidence. -/

lemma cmc_eq_pre (r ch : List String) (c : ℚ) :
    OntologyProcessor.calculate_mapping_confidence r ch c =
      round2 (mappingPre (OntologyProcessor.vocabHits r ch) c) := by
  rcases eq_or_ne r [] with hr | hr <;> rcases eq_or_ne ch [] with hc | hc <;>
    simp [OntologyProcessor.calculate_mapping_confidence, OntologyProcessor.vocabHits,
      mappingPre, hr, hc]

lemma mappingPre_mono (c : ℚ) (hc : c ≤ 1) {i j : ℕ} (hij : i ≤ j) :
    mappingPre i c ≤ mappingPre j c := by
  have hp01 : c ≤ min 1 (c + 1/10) := le_min hc (by linarith)
  have hp02 : c ≤ min 1 (c + 2/10) := le_min hc (by linarith)
  have hp12 : min 1 (c + 1/10) ≤ min 1 (c + 2/10) := min_le_min le_rfl (by linarith)
  rw [mappingPre, mappingPre]
  split_ifs <;> first | exact le_refl _ | exact hp01 | exact hp02 | exact hp12 | omega

/-! Lemmas about the feedback-store upsert. -/

namespace FeedbackLogger

lemma countUnedited_cons (img : String) (l : FeedbackEntry) (ls : List FeedbackEntry) :
    countUnedited img (l :: ls) =
      (if l.image = img ∧ l.has_edits = false then 1 else 0) + countUnedited img ls := by
  rw [countUnedited, countUnedited, List.filter_cons]
  by_cases h : l.image = img ∧ l.has_edits = false
  · simp only [h, decide_eq_true_eq, if_pos]
    simp [List.length_cons]
    omega
  · simp only [h, decide_eq_true_eq, if_neg, not_false_iff]
    simp [h]

lemma countUnedited_upsert_other (imgN : String) (entry : FeedbackEntry)
    (logs : List FeedbackEntry) (hentry : entry.image = imgN) (img : String)
    (hne : img ≠ imgN) :
    countUnedited img (upsert_entry imgN entry logs) = countUnedited img logs := by
  have hent : ¬ (entry.image = img ∧ entry.has_edits = false) := by
    rintro ⟨h1, _⟩
    exact hne (h1.symm.trans hentry)
  induction logs with
  | nil =>
    rw [upsert_entry, countUnedited_cons, if_neg hent]
    simp [countUnedited]
  | cons l ls ih =>
    rw [upsert_entry]
    split_ifs with hcond
    · have hl : ¬ (l.image = img ∧ l.has_edits = false) := by
        rintro ⟨h1, _⟩
        exact hne (h1.symm.trans hcond.1)
      rw [countUnedited_cons, if_neg hent, countUnedited_cons, if_neg hl]
    · rw [countUnedited_cons, countUnedited_cons, ih]

lemma countUnedited_upsert_self (imgN : String) (entry : FeedbackEntry)
    (logs : List FeedbackEntry) (h : countUnedited imgN logs ≤ 1) :
    countUnedited imgN (upsert_entry imgN entry logs) ≤ 1 := by
  induction logs with
  | nil =>
    rw [upsert_entry, countUnedited_cons]
    have hnil : countUnedited imgN ([] : List FeedbackEntry) = 0 := by simp [countUnedited]
    split_ifs <;> omega
  | cons l ls ih =>
    rw [upsert_entry]
    split_ifs with hcond
    · rw [countUnedited_cons, if_pos hcond] at h
      rw [countUnedited_cons]
      split_ifs <;> omega
    · rw [countUnedited_cons, if_neg hcond] at h
      rw [countUnedited_cons, if_neg hcond]
      simpa using ih (by omega)

lemma edited_mem_upsert (imgN : String) (entry : FeedbackEntry)
    (logs : List FeedbackEntry) (e : FeedbackEntry) (he : e ∈ logs)
    (hed : e.has_edits = true) : e ∈ upsert_entry imgN entry logs := by
  induction logs with
  | nil => exact absurd he (List.not_mem_nil e)
  | cons l ls ih =>
    rw [upsert_entry]
    split_ifs with hcond
    · rcases List.mem_cons.mp he with rfl | hels
      · rw [hcond.2] at hed
        exact absurd hed (by simp)
      · exact List.mem_cons_of_mem _ hels
    · rcases List.mem_cons.mp he with rfl | hels
      · exact List.mem_cons_self _ _
      · exact List.mem_cons_of_mem _ (ih hels)

lemma log_feedback_logs (st : Store) (a : FeedbackArgs) :
    (log_feedback st a).1.feedback_logs =
      upsert_entry a.image_name (feedback_entry_of a) st.feedback_logs := by
  rcases ha : a.edited_report with _ | ed <;> simp [log_feedback, ha]

lemma feedback_entry_image (a : FeedbackArgs) :
    (feedback_entry_of a).image = a.image_name := rfl

lemma feedback_entry_has_edits (a : FeedbackArgs) :
    (feedback_entry_of a).has_edits = a.edited_report.isSome := rfl

end FeedbackLogger

/-! Lemmas about the per-finding rule-application step. -/

namespace ContinuousLearningEngine

lemma applyAdjustment_finding (n : String) (f : CLFinding) (r : Rule) :
    (applyAdjustment n f r).finding = f.finding := by
  rw [applyAdjustment]
  split_ifs <;> rfl

lemma applyAdjustment_location (n : String) (f : CLFinding) (r : Rule) :
    (applyAdjustment n f r).location = f.location := by
  rw [applyAdjustment]
  split_ifs <;> rfl

lemma applyAdjustment_evidence (n : String) (f : CLFinding) (r : Rule) :
    (applyAdjustment n f r).evidence = f.evidence := by
  rw [applyAdjustment]
  split_ifs <;> rfl

lemma applyAdjustment_severity (n : String) (f : CLFinding) (r : Rule) :
    (applyAdjustment n f r).severity = f.severity := by
  rw [applyAdjustment]
  split_ifs <;> rfl

lemma foldl_applyAdjustment_fields (n : String) (rs : List Rule) (f : CLFinding) :
    (rs.foldl (applyAdjustment n) f).finding = f.finding ∧
    (rs.foldl (applyAdjustment n) f).location = f.location ∧
    (rs.foldl (applyAdjustment n) f).evidence = f.evidence ∧
    (rs.foldl (applyAdjustment n) f).severity = f.severity := by
  induction rs generalizing f with
  | nil => exact ⟨rfl, rfl, rfl, rfl⟩
  | cons r rest ih =>
    rw [List.foldl_cons]
    obtain ⟨h1, h2, h3, h4⟩ := ih (applyAdjustment n f r)
    exact ⟨h1.trans (applyAdjustment_finding n f r),
      h2.trans (applyAdjustment_location n f r),
      h3.trans (applyAdjustment_evidence n f r),
      h4.trans (applyAdjustment_severity n f r)⟩

end ContinuousLearningEngine

/-! Evaluation lemmas for the end-to-end learning scenario. -/

namespace ContinuousLearningEngine

lemma c3_count_name : count_pattern_occurrences "Cardiomegaly" [c3record] = 1 := by decide

lemma c3_count_edit :
    count_pattern_occurrences "Cardiomegaly -> Cardiomegaly" [c3record] = 0 := by decide

lemma c3_edit_patterns :
    extract_edit_patterns [c3record] = [("Cardiomegaly -> Cardiomegaly", 1)] := by decide

lemma c3_finding_patterns : extract_finding_patterns [c3record] = [] := by decide

lemma c3_confidence_patterns :
    extract_confidence_patterns [c3record] = [("Cardiomegaly", mkRat 2 5)] := by
  simp only [extract_confidence_patterns, List.foldl, List.zip, List.zipWith,
    c3record, c3orig, c3edit, emptyFinding]
  norm_num [mkRat_as_div, listMapAdd]
  have habs : |(2:ℚ)/5| = 2/5 := abs_of_pos (by norm_num)
  rw [habs, if_pos (by norm_num : (1:ℚ)/10 < 2/5)]
  norm_num

lemma c3_edit_rule_confidence :
    calculate_rule_confidence "Cardiomegaly -> Cardiomegaly" [c3record] = 0 := by
  rw [calculate_rule_confidence]
  norm_num [c3_count_edit, round2, roundHalfEven]

lemma round2_two_fifths : round2 ((2:ℚ)/5) = 2/5 := by
  rw [round2_of_mul_eq ((2:ℚ)/5) 40 (by norm_num)]
  norm_num

lemma round2_nine_tenths : round2 ((9:ℚ)/10) = 9/10 := by
  rw [round2_of_mul_eq ((9:ℚ)/10) 90 (by norm_num)]
  norm_num

lemma c3_mined_rules : mine_rules [c3record] 1 =
    [{ type := RuleType.edit_pattern, pattern := "Cardiomegaly -> Cardiomegaly", support := 1,
       confidence := some 0, adjustment := none, associations := none },
     { type := RuleType.confidence_adjustment, pattern := "Cardiomegaly", support := 1,
       confidence := none, adjustment := some (mkRat 2 5), associations := none }] := by
  have habs : |(2:ℚ)/5| = 2/5 := abs_of_pos (by norm_num)
  have happ : "Cardiomegaly" ++ " -> " ++ "Cardiomegaly" = "Cardiomegaly -> Cardiomegaly" := rfl
  rw [mine_rules]
  norm_num [discovered_rules, mined_edit_rules, mined_confidence_rules, mined_association_rules,
    c3_edit_patterns, c3_finding_patterns, c3_confidence_patterns, c3_edit_rule_confidence,
    c3_count_name, round2_two_fifths, mkRat_as_div, habs, happ, c3orig, c3edit, emptyFinding,
    sortDescBy, orderedInsertDesc]

lemma pyIn_cardio : pyIn (pyLower "Cardiomegaly") (pyLower "Cardiomegaly") = true := by decide

end ContinuousLearningEngine

/-! Lemmas about the normalizer findings loop. -/

namespace JsonReportGenerator

lemma coercedConfidences_cons_dict (kvs : List (String × PyVal)) (rest : List PyVal) :
    coercedConfidences (PyVal.pdict kvs :: rest) =
      pyFloat (rawConfidence kvs) :: coercedConfidences rest := rfl

lemma normFindings_ok (xs : List PyVal)
    (h : xs.all (fun x => match x with
      | PyVal.pdict kvs => (pyFloat (rawConfidence kvs)).isSome
      | _ => true) = true) :
    ∃ l, normFindings xs = Except.ok l ∧
      l.map (fun nf => some nf.confidence) = coercedConfidences xs := by
  induction xs with
  | nil => exact ⟨[], rfl, rfl⟩
  | cons x rest ih =>
    rw [List.all_cons, Bool.and_eq_true] at h
    obtain ⟨hx, hrest⟩ := h
    obtain ⟨l, hl, hmap⟩ := ih hrest
    cases x with
    | pdict kvs =>
      obtain ⟨c, hc⟩ := Option.isSome_iff_exists.mp hx
      refine ⟨{ finding := (lookupPy kvs "finding").getD (PyVal.pstr ""),
                location := (lookupPy kvs "location").getD (PyVal.pstr ""),
                evidence := (lookupPy kvs "evidence").getD (PyVal.pstr ""),
                confidence := c,
                severity := (lookupPy kvs "severity").getD (PyVal.pstr "unknown") } :: l,
        ?_, ?_⟩
      · rw [normFindings, hc, hl]
      · rw [List.map_cons, hmap, coercedConfidences_cons_dict, hc]
    | pstr s => exact ⟨l, hl, by rw [hmap]; rfl⟩
    | pnum q => exact ⟨l, hl, by rw [hmap]; rfl⟩
    | pbool b => exact ⟨l, hl, by rw [hmap]; rfl⟩
    | plist ys => exact ⟨l, hl, by rw [hmap]; rfl⟩
    | pnone => exact ⟨l, hl, by rw [hmap]; rfl⟩

end JsonReportGenerator

/-! The claim theorems. -/

/-- C1 counterexample: in the three-call scenario (two record calls for
"x.jpg" without edits, then one with an edited report), the third call does
NOT append a second entry: the store holds exactly one entry for "x.jpg",
and the previously stored un-edited entry has been overwritten by the edited
one (the single remaining entry has has_edits true). -/
theorem c1_third_call_overwrites_unedited_entry :
    ¬ ((c1FinalStore.feedback_logs.filter (fun e => decide (e.image = "x.jpg"))).length = 2) ∧
    c1FinalStore.feedback_logs.map (fun e => e.has_edits) = [true] := by decide

/-- C1 amended: after two no-edit record calls for one image, the store has
exactly one entry for it; a third call that supplies an edited report
REPLACES that still-unedited entry (one entry remains, now with
has_edits true). Moreover every log_feedback call preserves the invariant
that each image has at most one entry without edits, and entries with
has_edits true are never overwritten by later calls. -/
theorem c1_feedback_upsert_amended :
    (∀ (a1 a2 a3 : FeedbackLogger.FeedbackArgs) (img : String) (ed : CLReport),
      a1.image_name = img → a2.image_name = img → a3.image_name = img →
      a1.edited_report = none → a2.edited_report = none → a3.edited_report = some ed →
      ((((FeedbackLogger.log_feedback
            ((FeedbackLogger.log_feedback
              ((FeedbackLogger.log_feedback ⟨[], []⟩ a1).1) a2).1) a3).1).feedback_logs.filter
          (fun e => decide (e.image = img))).length = 1 ∧
        ∀ e ∈ (((FeedbackLogger.log_feedback
            ((FeedbackLogger.log_feedback
              ((FeedbackLogger.log_feedback ⟨[], []⟩ a1).1) a2).1) a3).1).feedback_logs),
          e.has_edits = true)) ∧
    (∀ (st : FeedbackLogger.Store) (a : FeedbackLogger.FeedbackArgs),
      (∀ img, FeedbackLogger.countUnedited img st.feedback_logs ≤ 1) →
      ∀ img, FeedbackLogger.countUnedited img
        (FeedbackLogger.log_feedback st a).1.feedback_logs ≤ 1) ∧
    (∀ (st : FeedbackLogger.Store) (a : FeedbackLogger.FeedbackArgs)
        (e : FeedbackLogger.FeedbackEntry),
      e ∈ st.feedback_logs → e.has_edits = true →
      e ∈ (FeedbackLogger.log_feedback st a).1.feedback_logs) := by
  refine ⟨?_, ?_, ?_⟩
  · intro a1 a2 a3 img ed h1 h2 h3 he1 he2 he3
    have hl1 : ((FeedbackLogger.log_feedback (⟨[], []⟩ : FeedbackLogger.Store) a1).1).feedback_logs =
        [FeedbackLogger.feedback_entry_of a1] := by
      rw [FeedbackLogger.log_feedback_logs]
      rfl
    have hl2 : ((FeedbackLogger.log_feedback
        ((FeedbackLogger.log_feedback (⟨[], []⟩ : FeedbackLogger.Store) a1).1) a2).1).feedback_logs =
        [FeedbackLogger.feedback_entry_of a2] := by
      rw [FeedbackLogger.log_feedback_logs, hl1, FeedbackLogger.upsert_entry, if_pos]
      exact ⟨by rw [FeedbackLogger.feedback_entry_image, h1, h2],
        by rw [FeedbackLogger.feedback_entry_has_edits, he1]; rfl⟩
    have hl3 : (((FeedbackLogger.log_feedback
        ((FeedbackLogger.log_feedback
          ((FeedbackLogger.log_feedback (⟨[], []⟩ : FeedbackLogger.Store) a1).1) a2).1) a3).1).feedback_logs) =
        [FeedbackLogger.feedback_entry_of a3] := by
      rw [FeedbackLogger.log_feedback_logs, hl2, FeedbackLogger.upsert_entry, if_pos]
      exact ⟨by rw [FeedbackLogger.feedback_entry_image, h2, h3],
        by rw [FeedbackLogger.feedback_entry_has_edits, he2]; rfl⟩
    rw [hl3]
    constructor
    · rw [List.filter_cons]
      have himg : (FeedbackLogger.feedback_entry_of a3).image = img := by
        rw [FeedbackLogger.feedback_entry_image, h3]
      simp [himg]
    · intro e he
      rcases List.mem_singleton.mp he with rfl
      rw [FeedbackLogger.feedback_entry_has_edits, he3]
      rfl
  · intro st a hinv img
    rw [FeedbackLogger.log_feedback_logs]
    rcases eq_or_ne img a.image_name with heq | hne
    · subst heq
      exact FeedbackLogger.countUnedited_upsert_self _
        (FeedbackLogger.feedback_entry_of a) st.feedback_logs (hinv _)
    · rw [FeedbackLogger.countUnedited_upsert_other a.image_name
        (FeedbackLogger.feedback_entry_of a) st.feedback_logs
        (FeedbackLogger.feedback_entry_image a) img hne]
      exact hinv img
  · intro st a e he hed
    rw [FeedbackLogger.log_feedback_logs]
    exact FeedbackLogger.edited_mem_upsert a.image_name
      (FeedbackLogger.feedback_entry_of a) st.feedback_logs e he hed

/-- C1 witness: the amended scenario instantiated at the concrete three-call
run on "x.jpg" yields exactly one stored entry for that image. -/
theorem c1_feedback_upsert_amended_witness :
    (c1FinalStore.feedback_logs.filter (fun e => decide (e.image = "x.jpg"))).length = 1 :=
  (c1_feedback_upsert_amended.1 (c1Args "t1" none) (c1Args "t2" none)
    (c1Args "t3" (some c1Edited)) "x.jpg" c1Edited rfl rfl rfl rfl rfl rfl).1

/-- C2 counterexample: a confidence_adjustment rule with pattern
"Cardiomegaly" adjusts a finding named "Cardio" although the pattern is not
a substring of the finding name (the source tests the opposite direction:
the finding name inside the pattern), so "adjusts exactly when the rule
pattern is a case-insensitive substring of the finding name" is false. -/
theorem c2_substring_direction_counterexample :
    pyIn (pyLower c2Rule.pattern) (pyLower (c2Finding.finding.getD "")) = false ∧
    (ContinuousLearningEngine.improveFinding [c2Rule] c2Finding).confidence_adjusted
      = some true ∧
    (ContinuousLearningEngine.improveFinding [c2Rule] c2Finding).confidence
      = some ((7:ℚ)/10) := by
  refine ⟨by decide, by decide, ?_⟩
  rw [ContinuousLearningEngine.improveFinding, List.foldl_cons, List.foldl_nil,
    ContinuousLearningEngine.applyAdjustment, if_pos ⟨rfl, by decide⟩]
  simp only [c2Finding, c2Rule, emptyFinding, Option.getD_some]
  norm_num [mkRat_as_div, min_def, max_def]
  rw [round2_of_mul_eq ((7:ℚ)/10) 70 (by norm_num)]
  norm_num

/-- C2 amended: a ConfidenceAdjustment rule adjusts a finding exactly when
the finding name is a case-insensitive substring of the rule pattern (the
converse of the claimed direction); when it applies, the adjustment is added
to the current confidence, clamped to [0,1], rounded to 2 decimals,
confidence_adjusted is set and a reason naming the pattern is attached;
rules apply cumulatively in rule order, and apply_rules_to_report transforms
every finding this way. -/
theorem c2_rule_application_amended :
    ∀ (f : CLFinding) (r : ContinuousLearningEngine.Rule)
      (rs rules : List ContinuousLearningEngine.Rule) (report : CLReport),
      (ContinuousLearningEngine.improveFinding (r :: rs) f =
        ContinuousLearningEngine.improveFinding rs
          (ContinuousLearningEngine.improveFinding [r] f)) ∧
      (ContinuousLearningEngine.improveFinding [r] f =
        if r.type = ContinuousLearningEngine.RuleType.confidence_adjustment ∧
            pyIn (pyLower (f.finding.getD "")) (pyLower r.pattern) = true then
          { f with
            confidence :=
              some (round2 (max 0 (min 1 (f.confidence.getD (1/2) + r.adjustment.getD 0)))),
            confidence_adjusted := some true,
            adjustment_reason := some ("Based on learned pattern: " ++ r.pattern) }
        else f) ∧
      ((ContinuousLearningEngine.apply_rules_to_report rules report).findings =
        report.findings.map (ContinuousLearningEngine.improveFinding rules)) := by
  intro f r rs rules report
  refine ⟨?_, ?_, rfl⟩
  · rw [ContinuousLearningEngine.improveFinding, ContinuousLearningEngine.improveFinding,
      ContinuousLearningEngine.improveFinding, List.foldl_cons, List.foldl_cons,
      List.foldl_nil, ContinuousLearningEngine.applyAdjustment_finding]
  · rw [ContinuousLearningEngine.improveFinding, List.foldl_cons, List.foldl_nil,
      ContinuousLearningEngine.applyAdjustment]

/-- C3: logging the single Cardiomegaly 0.5-to-0.9 edit record and mining
with min_support 1 yields a confidence_adjustment rule with pattern
"Cardiomegaly" and adjustment 0.4, and applying the mined rules to a fresh
report with a Cardiomegaly finding at confidence 0.5 yields confidence 0.9
with confidence_adjusted set. -/
theorem c3_end_to_end_learning :
    (∃ r ∈ ContinuousLearningEngine.mine_rules [c3record] 1,
      r.type = ContinuousLearningEngine.RuleType.confidence_adjustment ∧
      r.pattern = "Cardiomegaly" ∧ r.adjustment = some ((2:ℚ)/5)) ∧
    ((ContinuousLearningEngine.apply_rules_to_report
        (ContinuousLearningEngine.mine_rules [c3record] 1) c3fresh).findings.map
      (fun f => (f.confidence, f.confidence_adjusted)) = [(some ((9:ℚ)/10), some true)]) := by
  constructor
  · rw [ContinuousLearningEngine.c3_mined_rules]
    refine ⟨_, List.mem_cons_of_mem _ (List.mem_singleton_self _), rfl, rfl, ?_⟩
    norm_num [mkRat_as_div]
  · rw [ContinuousLearningEngine.c3_mined_rules]
    simp only [ContinuousLearningEngine.apply_rules_to_report,
      ContinuousLearningEngine.improveFinding, List.foldl_cons, List.foldl_nil,
      ContinuousLearningEngine.applyAdjustment, c3fresh, c3orig, emptyFinding, List.map]
    rw [if_neg (by simp :
      ¬ (ContinuousLearningEngine.RuleType.edit_pattern =
            ContinuousLearningEngine.RuleType.confidence_adjustment ∧
          pyIn (pyLower ((some "Cardiomegaly" : Option String).getD ""))
            (pyLower "Cardiomegaly -> Cardiomegaly") = true))]
    simp only [Option.getD_some, ContinuousLearningEngine.pyIn_cardio, eq_self_iff_true,
      true_and, and_true, if_true]
    norm_num [mkRat_as_div, min_def, max_def, ContinuousLearningEngine.round2_nine_tenths]

/-- C4 counterexample: at original confidence 0.123 (inside [0,1]) with no
vocabulary matches, the mapping confidence rounds down to 0.12, which is
below the claimed lower bound of the original confidence. -/
theorem c4_rounding_breaks_lower_bound :
    (0:ℚ) ≤ 123/1000 ∧ (123:ℚ)/1000 ≤ 1 ∧
    ¬ ((123:ℚ)/1000 ≤
        OntologyProcessor.calculate_mapping_confidence [] [] (123/1000)) := by
  refine ⟨by norm_num, by norm_num, ?_⟩
  have h : OntologyProcessor.calculate_mapping_confidence [] [] (123/1000) = 3/25 := by
    rw [OntologyProcessor.calculate_mapping_confidence]
    norm_num
    rw [round2]
    have hfloor : ⌊(123:ℚ)/1000 * 100⌋ = 12 := by
      rw [show (123:ℚ)/1000 * 100 = 123/10 by norm_num, Int.floor_eq_iff]
      norm_num
    rw [roundHalfEven, hfloor]
    rw [if_pos (by norm_num [hfloor] : (123:ℚ)/1000 * 100 - ((12:ℤ):ℚ) < 1/2)]
    norm_num
  rw [h]
  norm_num

/-- C4 amended: for original confidence c in [0,1], the mapping confidence is
monotone in the number of matching vocabularies, and when c is an integer
multiple of 0.01 (as all confidences produced by this pipeline are, being
rounded to 2 decimals) it lies in [c, c+0.2] clamped to 1.0. -/
theorem c4_mapping_confidence_amended :
    ∀ (c : ℚ), 0 ≤ c → c ≤ 1 →
      (∀ r1 ch1 r2 ch2 : List String,
        OntologyProcessor.vocabHits r1 ch1 ≤ OntologyProcessor.vocabHits r2 ch2 →
        OntologyProcessor.calculate_mapping_confidence r1 ch1 c ≤
          OntologyProcessor.calculate_mapping_confidence r2 ch2 c) ∧
      (∀ k : ℤ, c = (k:ℚ)/100 → ∀ r ch : List String,
        c ≤ OntologyProcessor.calculate_mapping_confidence r ch c ∧
        OntologyProcessor.calculate_mapping_confidence r ch c ≤ min 1 (c + 1/5)) := by
  intro c hc0 hc1
  constructor
  · intro r1 ch1 r2 ch2 hh
    rw [cmc_eq_pre, cmc_eq_pre]
    exact round2_mono (mappingPre_mono c hc1 hh)
  · intro k hk r ch
    have hk0 : 0 ≤ k := by
      rw [hk] at hc0
      by_contra hneg
      push_neg at hneg
      have hq : (k:ℚ) < 0 := by exact_mod_cast hneg
      nlinarith
    have hk100 : k ≤ 100 := by
      rw [hk] at hc1
      by_contra hneg
      push_neg at hneg
      have hq : (100:ℚ) < (k:ℚ) := by exact_mod_cast hneg
      nlinarith
    have hu : min 1 ((k:ℚ)/100 + 1/5) = ((min 100 (k + 20) : ℤ):ℚ)/100 := by
      rw [show (1:ℚ)/5 = ((20:ℤ):ℚ)/100 from by norm_num, bonus_as_div, min_one_div100]
    rw [cmc_eq_pre, hk, mappingPre]
    split_ifs with h2 h1
    · have hv : min 1 ((k:ℚ)/100 + 2/10) = ((min 100 (k + 20) : ℤ):ℚ)/100 := by
        rw [show (2:ℚ)/10 = ((20:ℤ):ℚ)/100 from by norm_num, bonus_as_div, min_one_div100]
      rw [hv, round2_int_div_100, hu]
      constructor
      · exact qdiv100_le_qdiv100 (by omega)
      · exact qdiv100_le_qdiv100 (by omega)
    · have hv : min 1 ((k:ℚ)/100 + 1/10) = ((min 100 (k + 10) : ℤ):ℚ)/100 := by
        rw [show (1:ℚ)/10 = ((10:ℤ):ℚ)/100 from by norm_num, bonus_as_div, min_one_div100]
      rw [hv, round2_int_div_100, hu]
      constructor
      · exact qdiv100_le_qdiv100 (by omega)
      · exact qdiv100_le_qdiv100 (by omega)
    · rw [round2_int_div_100, hu]
      constructor
      · exact le_refl _
      · exact qdiv100_le_qdiv100 (by omega)

/-- C4 witness: the amended bounds instantiated at confidence 0.5 with one
matching vocabulary. -/
theorem c4_mapping_confidence_amended_witness :
    (1:ℚ)/2 ≤ OntologyProcessor.calculate_mapping_confidence ["cardiomegaly"] [] (1/2) ∧
    OntologyProcessor.calculate_mapping_confidence ["cardiomegaly"] [] (1/2) ≤
      min 1 ((1:ℚ)/2 + 1/5) :=
  (c4_mapping_confidence_amended (1/2) (by norm_num) (by norm_num)).2 50 (by norm_num)
    ["cardiomegaly"] []

/-- C5: mining twice over an unchanged log yields the same rule list and the
same cached engine state; every mined list is sorted by support descending;
and for each support value the rules with that support appear exactly as in
the discovery list, which is edit patterns, then confidence adjustments,
then finding associations, each in insertion order (so ties keep discovery
order: the sort is stable). -/
theorem c5_mining_deterministic_and_sorted :
    ∀ (e : ContinuousLearningEngine.Engine) (data : List LearningRecord) (ms : ℕ),
      ((ContinuousLearningEngine.engine_mine e data ms).2 =
        (ContinuousLearningEngine.engine_mine
          (ContinuousLearningEngine.engine_mine e data ms).1 data ms).2) ∧
      ((ContinuousLearningEngine.engine_mine e data ms).1 =
        (ContinuousLearningEngine.engine_mine
          (ContinuousLearningEngine.engine_mine e data ms).1 data ms).1) ∧
      (ContinuousLearningEngine.mine_rules data ms).Pairwise
        (fun a b => b.support ≤ a.support) ∧
      (∀ s : ℕ, (ContinuousLearningEngine.mine_rules data ms).filter
          (fun r => decide (r.support = s)) =
        (ContinuousLearningEngine.discovered_rules data ms).filter
          (fun r => decide (r.support = s))) ∧
      (ContinuousLearningEngine.discovered_rules data ms =
        ContinuousLearningEngine.mined_edit_rules data ms
          ++ ContinuousLearningEngine.mined_confidence_rules data
          ++ ContinuousLearningEngine.mined_association_rules data ms) := by
  intro e data ms
  refine ⟨rfl, rfl, ?_, ?_, rfl⟩
  · rw [ContinuousLearningEngine.mine_rules]
    split_ifs with h
    · exact List.Pairwise.nil
    · exact sorted_sortDescBy _ _
  · intro s
    rw [ContinuousLearningEngine.mine_rules]
    split_ifs with h
    · rw [List.isEmpty_iff] at h
      subst h
      rfl
    · exact filter_sortDescBy _ _ s

/-- C6 counterexample: a raw payload missing impression, recommendations and
metadata, whose findings list holds one dict with the non-coercible
confidence "abc", makes the normalizer raise (float("abc") is a ValueError
in the source), refuting the unqualified claim that the normalizer returns
without raising on every payload missing any subset of the four keys. -/
theorem c6_non_coercible_confidence_raises :
    JsonReportGenerator.normalize_report_structure
        [("findings", JsonReportGenerator.PyVal.plist
          [JsonReportGenerator.PyVal.pdict
            [("confidence", JsonReportGenerator.PyVal.pstr "abc")]])] =
      Except.error "ValueError: could not convert value to float" ∧
    JsonReportGenerator.lookupPy
      [("findings", JsonReportGenerator.PyVal.plist
        [JsonReportGenerator.PyVal.pdict
          [("confidence", JsonReportGenerator.PyVal.pstr "abc")]])] "impression" = none ∧
    JsonReportGenerator.lookupPy
      [("findings", JsonReportGenerator.PyVal.plist
        [JsonReportGenerator.PyVal.pdict
          [("confidence", JsonReportGenerator.PyVal.pstr "abc")]])] "recommendations" = none ∧
    JsonReportGenerator.lookupPy
      [("findings", JsonReportGenerator.PyVal.plist
        [JsonReportGenerator.PyVal.pdict
          [("confidence", JsonReportGenerator.PyVal.pstr "abc")]])] "metadata" = none :=
  ⟨rfl, rfl, rfl, rfl⟩

/-- C6 amended: the normalizer returns without raising whenever every
finding-shaped item of the findings list has a float-coercible confidence
(only float() applied to a present, non-coercible confidence value can
raise; a missing findings key trivially satisfies this), and each of the
four keys missing from the raw payload gets its default: findings an empty
list, impression an empty string, recommendations an empty list with a lone
string coerced to a one-element list, metadata an empty mapping; each
retained finding carries the coerced confidence, with 0.5 used when the key
is absent. -/
theorem c6_normalizer_totality :
    ∀ report : List (String × JsonReportGenerator.PyVal),
      JsonReportGenerator.findingsCoercible report = true →
      ∃ rep, JsonReportGenerator.normalize_report_structure report = Except.ok rep ∧
        (JsonReportGenerator.lookupPy report "findings" = none → rep.findings = []) ∧
        (JsonReportGenerator.lookupPy report "impression" = none →
          rep.impression = JsonReportGenerator.PyVal.pstr "") ∧
        (JsonReportGenerator.lookupPy report "recommendations" = none →
          rep.recommendations = []) ∧
        (∀ s, JsonReportGenerator.lookupPy report "recommendations" =
            some (JsonReportGenerator.PyVal.pstr s) →
          rep.recommendations = [JsonReportGenerator.PyVal.pstr s]) ∧
        (JsonReportGenerator.lookupPy report "metadata" = none → rep.metadata = []) ∧
        (∀ xs, JsonReportGenerator.lookupPy report "findings" =
            some (JsonReportGenerator.PyVal.plist xs) →
          rep.findings.map (fun nf => some nf.confidence) =
            JsonReportGenerator.coercedConfidences xs) := by
  intro report hco
  rw [JsonReportGenerator.findingsCoercible] at hco
  have main : ∃ fl, (match JsonReportGenerator.lookupPy report "findings" with
      | some (JsonReportGenerator.PyVal.plist xs) => JsonReportGenerator.normFindings xs
      | _ => Except.ok ([] : List JsonReportGenerator.NormFinding)) = Except.ok fl ∧
      (JsonReportGenerator.lookupPy report "findings" = none → fl = []) ∧
      (∀ xs, JsonReportGenerator.lookupPy report "findings" =
          some (JsonReportGenerator.PyVal.plist xs) →
        fl.map (fun nf => some nf.confidence) = JsonReportGenerator.coercedConfidences xs) := by
    rcases hf : JsonReportGenerator.lookupPy report "findings" with _ | v
    · refine ⟨[], rfl, fun _ => rfl, ?_⟩
      intro xs hxs
      cases hxs
    · cases v with
      | plist xs =>
        rw [hf] at hco
        obtain ⟨l, hl, hm⟩ := JsonReportGenerator.normFindings_ok xs hco
        refine ⟨l, hl, ?_, ?_⟩
        · intro hn
          cases hn
        · intro ys hys
          cases hys
          exact hm
      | pstr a =>
        refine ⟨[], rfl, ?_, ?_⟩
        · intro hn
          cases hn
        · intro ys hys
          cases hys
      | pnum a =>
        refine ⟨[], rfl, ?_, ?_⟩
        · intro hn
          cases hn
        · intro ys hys
          cases hys
      | pbool a =>
        refine ⟨[], rfl, ?_, ?_⟩
        · intro hn
          cases hn
        · intro ys hys
          cases hys
      | pdict a =>
        refine ⟨[], rfl, ?_, ?_⟩
        · intro hn
          cases hn
        · intro ys hys
          cases hys
      | pnone =>
        refine ⟨[], rfl, ?_, ?_⟩
        · intro hn
          cases hn
        · intro ys hys
          cases hys
  obtain ⟨fl, hfl, hnone, hxs⟩ := main
  refine ⟨{ findings := fl,
            impression :=
              (JsonReportGenerator.lookupPy report "impression").getD
                (JsonReportGenerator.PyVal.pstr ""),
            recommendations :=
              match JsonReportGenerator.lookupPy report "recommendations" with
              | some (JsonReportGenerator.PyVal.plist xs) => xs
              | some (JsonReportGenerator.PyVal.pstr s) => [JsonReportGenerator.PyVal.pstr s]
              | _ => [],
            metadata :=
              match JsonReportGenerator.lookupPy report "metadata" with
              | some (JsonReportGenerator.PyVal.pdict kvs) => kvs
              | _ => [] }, ?_, hnone, ?_, ?_, ?_, ?_, hxs⟩
  · rw [JsonReportGenerator.normalize_report_structure, hfl]
  · intro h
    simp only [h, Option.getD_none]
  · intro h
    simp only [h]
  · intro a h
    simp only [h]
  · intro h
    simp only [h]

/-- C6 witness: a payload holding only a lone-string recommendations key
normalizes without error to the all-defaults report with that string wrapped
in a list. -/
theorem c6_normalizer_totality_witness :
    JsonReportGenerator.normalize_report_structure
        [("recommendations", JsonReportGenerator.PyVal.pstr "Follow-up imaging")] =
      Except.ok
        { findings := [], impression := JsonReportGenerator.PyVal.pstr "",
          recommendations := [JsonReportGenerator.PyVal.pstr "Follow-up imaging"],
          metadata := [] } := by
  obtain ⟨rep, h1, h2, h3, h4, h5, h6, h7⟩ :=
    c6_normalizer_totality
      [("recommendations", JsonReportGenerator.PyVal.pstr "Follow-up imaging")] rfl
  cases rep with
  | mk f i r m =>
    have hf : f = [] := h2 rfl
    have hi : i = JsonReportGenerator.PyVal.pstr "" := h3 rfl
    have hr : r = [JsonReportGenerator.PyVal.pstr "Follow-up imaging"] := h5 _ rfl
    have hm : m = [] := h6 rfl
    subst hf
    subst hi
    subst hr
    subst hm
    exact h1

/-- C7: the explainability engine labels a finding high exactly when its
confidence is at least 0.7, medium exactly when it is in [0.4, 0.7), low
exactly when it is below 0.4 (so 0.75 is high, 0.55 medium, 0.2 low, with
0.7 and 0.4 inclusive lower bounds), and the per-report overall reliability
label equals the label the finding bucketing would assign to the mean
confidence. -/
theorem c7_confidence_bucketing :
    ∀ (f : CLFinding) (fs : List CLFinding),
      ((ExplainabilityEngine.explain_finding f).confidence_level = "high" ↔
        7/10 ≤ f.confidence.getD (1/2)) ∧
      ((ExplainabilityEngine.explain_finding f).confidence_level = "medium" ↔
        (2/5 ≤ f.confidence.getD (1/2) ∧ f.confidence.getD (1/2) < 7/10)) ∧
      ((ExplainabilityEngine.explain_finding f).confidence_level = "low" ↔
        f.confidence.getD (1/2) < 2/5) ∧
      (ExplainabilityEngine.explain_finding
        { emptyFinding with confidence := some (3/4) }).confidence_level = "high" ∧
      (ExplainabilityEngine.explain_finding
        { emptyFinding with confidence := some (11/20) }).confidence_level = "medium" ∧
      (ExplainabilityEngine.explain_finding
        { emptyFinding with confidence := some (1/5) }).confidence_level = "low" ∧
      ((ExplainabilityEngine.generate_summary_explanation fs).overall_reliability =
        (ExplainabilityEngine.explain_finding
          { emptyFinding with
            confidence := some (ExplainabilityEngine.summary_avg fs) }).confidence_level) := by
  intro f fs
  have hlevel : ∀ g : CLFinding, (ExplainabilityEngine.explain_finding g).confidence_level =
      if (7:ℚ)/10 ≤ g.confidence.getD (1/2) then "high"
      else if (2:ℚ)/5 ≤ g.confidence.getD (1/2) then "medium" else "low" := by
    intro g
    rw [ExplainabilityEngine.explain_finding]
    split_ifs <;> rfl
  refine ⟨?_, ?_, ?_, ?_, ?_, ?_, ?_⟩
  · rw [hlevel]
    split_ifs with h1 h2
    · exact iff_of_true rfl h1
    · exact iff_of_false (by decide) h1
    · exact iff_of_false (by decide) h1
  · rw [hlevel]
    split_ifs with h1 h2
    · exact iff_of_false (by decide) (fun h => absurd h1 (not_le.mpr h.2))
    · exact iff_of_true rfl ⟨h2, not_le.mp h1⟩
    · exact iff_of_false (by decide) (fun h => h2 h.1)
  · rw [hlevel]
    split_ifs with h1 h2
    · exact iff_of_false (by decide) (fun h => by linarith)
    · exact iff_of_false (by decide) (fun h => by linarith)
    · exact iff_of_true rfl (not_le.mp h2)
  · rw [hlevel]
    norm_num
  · rw [hlevel]
    norm_num
  · rw [hlevel]
    norm_num
  · rw [hlevel, ExplainabilityEngine.generate_summary_explanation]
    simp only [Option.getD_some]

/-- C8 counterexample: over a mined rule set holding three
finding_association rules, one of whose patterns matches the report finding
"A", the claim predicts rules_applied 1, but the source counts only
confidence_adjustment rules and emits 0. -/
theorem c8_rules_applied_counterexample :
    ((ContinuousLearningEngine.mine_rules c8data 2).filter (fun r =>
      c8report.findings.any
        (fun f => pyIn (pyLower r.pattern) (pyLower (f.finding.getD ""))))).length = 1 ∧
    ¬ ((ContinuousLearningEngine.apply_rules_to_report
        (ContinuousLearningEngine.mine_rules c8data 2) c8report).rules_applied = some 1) ∧
    (ContinuousLearningEngine.apply_rules_to_report
      (ContinuousLearningEngine.mine_rules c8data 2) c8report).rules_applied = some 0 := by
  refine ⟨by decide, by decide, by decide⟩

/-- C8 amended: rules_applied counts exactly the confidence_adjustment rules
among the given rules whose pattern is a case-insensitive substring of at
least one finding name of the original, pre-adjustment report; rules of the
other two variants are never counted. -/
theorem c8_rules_applied_amended :
    ∀ (rules : List ContinuousLearningEngine.Rule) (report : CLReport),
      ((ContinuousLearningEngine.apply_rules_to_report rules report).rules_applied =
        some ((rules.filter (fun r =>
          decide (r.type = ContinuousLearningEngine.RuleType.confidence_adjustment) &&
            report.findings.any
              (fun f => pyIn (pyLower r.pattern) (pyLower (f.finding.getD ""))))).length)) ∧
      (∀ r : ContinuousLearningEngine.Rule, ContinuousLearningEngine.rule_applies report r =
        (decide (r.type = ContinuousLearningEngine.RuleType.confidence_adjustment) &&
          report.findings.any
            (fun f => pyIn (pyLower r.pattern) (pyLower (f.finding.getD ""))))) := by
  intro rules report
  have happ : ∀ r : ContinuousLearningEngine.Rule,
      ContinuousLearningEngine.rule_applies report r =
      (decide (r.type = ContinuousLearningEngine.RuleType.confidence_adjustment) &&
        report.findings.any
          (fun f => pyIn (pyLower r.pattern) (pyLower (f.finding.getD "")))) := by
    intro r
    rw [ContinuousLearningEngine.rule_applies]
    split_ifs with h
    · simp [h]
    · simp [h]
  refine ⟨?_, happ⟩
  rw [ContinuousLearningEngine.apply_rules_to_report]
  simp only []
  congr 2
  exact List.filter_congr (fun r _ => happ r)

/-- C9: a missing or undecodable log file loads as the empty log for both
loggers and the learning engine; feedback statistics over such a store equal
the statistics of an empty store (zero entries), and rule mining over it
returns the empty rule list, exactly as over an empty log. -/
theorem c9_log_read_self_healing :
    ∀ (ms : ℕ),
      FeedbackLogger.load_logs FeedbackLogger.LogFile.missing = [] ∧
      FeedbackLogger.load_logs FeedbackLogger.LogFile.corrupt = [] ∧
      FeedbackLogger.load_learning_data FeedbackLogger.LogFile.missing = [] ∧
      FeedbackLogger.load_learning_data FeedbackLogger.LogFile.corrupt = [] ∧
      ContinuousLearningEngine.load_learning_data FeedbackLogger.LogFile.missing = [] ∧
      ContinuousLearningEngine.load_learning_data FeedbackLogger.LogFile.corrupt = [] ∧
      FeedbackLogger.get_feedback_statistics FeedbackLogger.LogFile.missing =
        FeedbackLogger.get_feedback_statistics (FeedbackLogger.LogFile.wellFormed []) ∧
      FeedbackLogger.get_feedback_statistics FeedbackLogger.LogFile.corrupt =
        FeedbackLogger.get_feedback_statistics (FeedbackLogger.LogFile.wellFormed []) ∧
      (FeedbackLogger.get_feedback_statistics FeedbackLogger.LogFile.missing).total_entries
        = 0 ∧
      ContinuousLearningEngine.mine_rules_from_file FeedbackLogger.LogFile.missing ms = [] ∧
      ContinuousLearningEngine.mine_rules_from_file FeedbackLogger.LogFile.corrupt ms = [] ∧
      ContinuousLearningEngine.mine_rules_from_file FeedbackLogger.LogFile.missing ms =
        ContinuousLearningEngine.mine_rules_from_file
          (FeedbackLogger.LogFile.wellFormed []) ms := by
  intro ms
  exact ⟨rfl, rfl, rfl, rfl, rfl, rfl, rfl, rfl, rfl, rfl, rfl, rfl⟩

/-- C10: apply_rules_to_report keeps the finding count and order, leaves
impression, recommendations and metadata untouched, changes within each
finding at most the confidence, confidence_adjusted and adjustment_reason
fields (name, location, evidence and severity are preserved pointwise), and
the only top-level key it adds is rules_applied. -/
theorem c10_rule_application_frame :
    ∀ (rules : List ContinuousLearningEngine.Rule) (report : CLReport),
      ((ContinuousLearningEngine.apply_rules_to_report rules report).findings.length =
        report.findings.length) ∧
      ((ContinuousLearningEngine.apply_rules_to_report rules report).impression =
        report.impression) ∧
      ((ContinuousLearningEngine.apply_rules_to_report rules report).recommendations =
        report.recommendations) ∧
      ((ContinuousLearningEngine.apply_rules_to_report rules report).metadata =
        report.metadata) ∧
      ((ContinuousLearningEngine.apply_rules_to_report rules report).findings.map
          (fun f => f.finding) = report.findings.map (fun f => f.finding)) ∧
      ((ContinuousLearningEngine.apply_rules_to_report rules report).findings.map
          (fun f => f.location) = report.findings.map (fun f => f.location)) ∧
      ((ContinuousLearningEngine.apply_rules_to_report rules report).findings.map
          (fun f => f.evidence) = report.findings.map (fun f => f.evidence)) ∧
      ((ContinuousLearningEngine.apply_rules_to_report rules report).findings.map
          (fun f => f.severity) = report.findings.map (fun f => f.severity)) ∧
      ((ContinuousLearningEngine.apply_rules_to_report rules report).rules_applied =
        some ((rules.filter
          (fun r => ContinuousLearningEngine.rule_applies report r)).length)) := by
  intro rules report
  have hmap : ∀ (g : CLFinding → Option String),
      (∀ x, g (ContinuousLearningEngine.improveFinding rules x) = g x) →
      (report.findings.map (ContinuousLearningEngine.improveFinding rules)).map g =
        report.findings.map g := by
    intro g hg
    rw [List.map_map]
    exact List.map_congr_left (fun a _ => hg a)
  refine ⟨by simp [ContinuousLearningEngine.apply_rules_to_report], rfl, rfl, rfl,
    ?_, ?_, ?_, ?_, rfl⟩
  · exact hmap _ (fun x =>
      (ContinuousLearningEngine.foldl_applyAdjustment_fields _ rules x).1)
  · exact hmap _ (fun x =>
      (ContinuousLearningEngine.foldl_applyAdjustment_fields _ rules x).2.1)
  · exact hmap _ (fun x =>
      (ContinuousLearningEngine.foldl_applyAdjustment_fields _ rules x).2.2.1)
  · exact hmap _ (fun x =>
      (ContinuousLearningEngine.foldl_applyAdjustment_fields _ rules x).2.2.2)

end RadAI
